import Mathlib

/-!
Shallow embedding of the go-phish-api admission pipeline
(package validate and the http server config) and proofs of the
spec claims about it.

External effects (the Go standard library net / net/url / net/http /
regexp primitives, the reputation HTTP service and DNS) are modelled
as an oracle structure Env; the code of the repository itself
(UrlBlacklister, IpChecker, Whitelister, Validator, HttpConfig) is
translated statement by statement.  Every operation returns, besides
its Go results, the updated cache state and a trace of observable
effects (cache reads and writes, HTTP attempts, sleeps, DNS lookups),
so that the claims about which calls happen on which path can be
stated exactly.
-/

/-- Result of parsing a URL with url.Parse, reduced to the two fields the
repository reads: Scheme and Hostname. -/
structure URLParts where
  scheme : String
  hostname : String
deriving DecidableEq, Repr

/-- A parsed IP address (net.IP), kept as raw bytes; all predicates on it
are supplied by the environment oracle. -/
structure IPAddr where
  bytes : List Nat
deriving DecidableEq, Repr

/-- Outcome of one whitelister HTTP attempt: http.Get error, body read
error, non-200 status, JSON unmarshal error, or a parsed result. -/
inductive AttemptOutcome where
  | netErr
  | readErr (status : Int)
  | badStatus (status : Int)
  | jsonErr (status : Int)
  | ok (result : Bool)
deriving DecidableEq, Repr

def AttemptOutcome.isOk : AttemptOutcome → Bool
  | .ok _ => true
  | _ => false

/-- Observable effects of the pipeline. -/
inductive Event where
  | parseDomain (url : String)
  | cacheGet (domain : String)
  | cacheSet (domain : String) (val : Bool)
  | repCacheGet (host : String)
  | repCacheSet (host : String) (val : Bool)
  | httpAttempt (url : String) (tryNo : Nat)
  | sleep (dur : Int)
  | dnsLookup (domain : String)
deriving DecidableEq, Repr

/-- The world outside the repository: Go standard library primitives
(url.Parse, net.ParseIP, the net.IP classification predicates,
(*net.IPNet).Contains on a parsed CIDR, fmt.Sprintf with one verb,
regexp matching of a compiled pattern) and the network (DNS lookup,
one whitelister HTTP attempt, indexed by target URL and try number). -/
structure Env where
  urlParse : String → Option URLParts
  parseIP : String → Option IPAddr
  isLoopback : IPAddr → Bool
  isLinkLocalUnicast : IPAddr → Bool
  isLinkLocalMulticast : IPAddr → Bool
  cidrContains : String → IPAddr → Bool
  lookupHost : String → Option (List String)
  format : String → String → String
  regexMatch : String → String → Bool
  attempt : String → Nat → AttemptOutcome

/-- An in-memory TTL cache (github.com/patrickmn/go-cache) observed at one
instant: the unexpired entries, as a partial map. -/
def MemCache := String → Option Bool

/-- cache.Set / cache.SetDefault. -/
def MemCache.set (c : MemCache) (k : String) (v : Bool) : MemCache :=
  fun x => if x = k then some v else c x

/-- The empty cache. -/
def MemCache.empty : MemCache := fun _ => none

/-- WhitelisterApi configuration block (MaxTries is a Go int, SleepTime a
time.Duration in nanoseconds). -/
structure WhitelisterApi where
  CheckIpApiUrl : String
  CheckDomainApiUrl : String
  MaxTries : Int
  SleepTime : Int
deriving DecidableEq, Repr

/-- The Whitelister client (its memcache is threaded explicitly). -/
structure Whitelister where
  checkDomainApiUrl : String
  checkIpApiUrl : String
  maxTries : Int
  sleepTime : Int
deriving DecidableEq, Repr

def NewWhitelister (cfg : WhitelisterApi) : Whitelister :=
  { checkDomainApiUrl := cfg.CheckDomainApiUrl
    checkIpApiUrl := cfg.CheckIpApiUrl
    maxTries := cfg.MaxTries
    sleepTime := cfg.SleepTime }

/-- The retry loop shared by DomainIsWhite and IpIsWhite:
for try := tryNo, as long as fuel iterations remain, sleep
sleepTime * try before every try after the first (when the duration is
positive), issue the attempt, and stop at the first parsed result; any
failure kind continues with the next try. -/
def wlTryLoop (env : Env) (url : String) (sleepTime : Int) :
    Nat → Nat → Option Bool × List Event
  | 0, _ => (none, [])
  | fuel + 1, tryNo =>
    let sleepEvents : List Event :=
      if tryNo > 1 then
        let sleepDuration := sleepTime * (tryNo : Int)
        if sleepDuration > 0 then [Event.sleep sleepDuration] else []
      else []
    match env.attempt url tryNo with
    | .ok result => (some result, sleepEvents ++ [Event.httpAttempt url tryNo])
    | _ =>
      let rest := wlTryLoop env url sleepTime fuel (tryNo + 1)
      (rest.1, sleepEvents ++ [Event.httpAttempt url tryNo] ++ rest.2)

/-- Whitelister.DomainIsWhite: short-circuit IP literals to false, then
consult the memcache, then run the retry loop; a parsed result is cached
with the default expiry; exhausted tries return (false, nil). -/
def Whitelister.DomainIsWhite (env : Env) (checker : Whitelister)
    (memcache : MemCache) (domain : String) :
    (Bool × Option String) × MemCache × List Event :=
  if (env.parseIP domain).isSome then
    ((false, none), memcache, [])
  else
    match memcache domain with
    | some isWhite => ((isWhite, none), memcache, [Event.repCacheGet domain])
    | none =>
      match wlTryLoop env (env.format checker.checkDomainApiUrl domain)
          checker.sleepTime checker.maxTries.toNat 1 with
      | (some isWhite, tr) =>
        ((isWhite, none), memcache.set domain isWhite,
          Event.repCacheGet domain :: (tr ++ [Event.repCacheSet domain isWhite]))
      | (none, tr) =>
        ((false, none), memcache, Event.repCacheGet domain :: tr)

/-- Whitelister.IpIsWhite: like DomainIsWhite but against the IP endpoint
and without the IP-literal short circuit. -/
def Whitelister.IpIsWhite (env : Env) (checker : Whitelister)
    (memcache : MemCache) (ip : String) :
    (Bool × Option String) × MemCache × List Event :=
  match memcache ip with
  | some isWhite => ((isWhite, none), memcache, [Event.repCacheGet ip])
  | none =>
    match wlTryLoop env (env.format checker.checkIpApiUrl ip)
        checker.sleepTime checker.maxTries.toNat 1 with
    | (some isWhite, tr) =>
      ((isWhite, none), memcache.set ip isWhite,
        Event.repCacheGet ip :: (tr ++ [Event.repCacheSet ip isWhite]))
    | (none, tr) =>
      ((false, none), memcache, Event.repCacheGet ip :: tr)

/-- IpChecker: the configured local CIDR ranges (kept as their CIDR
source strings; membership is the oracle cidrContains). -/
structure IpChecker where
  LocalIPNets : List String
deriving DecidableEq, Repr

def NewIpChecker (localNets : List String) : IpChecker :=
  { LocalIPNets := localNets }

/-- IpChecker.IsLocalIP: loopback, link-local unicast or link-local
multicast, or membership in one of the configured local nets. -/
def IpChecker.IsLocalIP (env : Env) (checker : IpChecker) (ip : IPAddr) : Bool :=
  if env.isLoopback ip || env.isLinkLocalUnicast ip || env.isLinkLocalMulticast ip then
    true
  else
    checker.LocalIPNets.any fun n => env.cidrContains n ip

/-- IpChecker.GetNetIP = net.ParseIP. -/
def IpChecker.GetNetIP (env : Env) (_checker : IpChecker) (domain : String) : Option IPAddr :=
  env.parseIP domain

/-- IpChecker.DomainIsIP: the domain parses as an IP. -/
def IpChecker.DomainIsIP (env : Env) (checker : IpChecker) (domain : String) : Bool :=
  (checker.GetNetIP env domain).isSome

/-- IpChecker.GetDomainIP: an IP literal is returned unchanged with no
lookup; otherwise net.LookupHost, failing on a lookup error or an empty
result list, else the first address. -/
def IpChecker.GetDomainIP (env : Env) (checker : IpChecker) (domain : String) :
    Except String String × List Event :=
  if checker.DomainIsIP env domain then
    (.ok domain, [])
  else
    match env.lookupHost domain with
    | none => (.error "net.LookupHost error", [Event.dnsLookup domain])
    | some [] => (.error "empty list of a-records received", [Event.dnsLookup domain])
    | some (ip :: _) => (.ok ip, [Event.dnsLookup domain])

/-- UrlBlacklister: the compiled regexps, abstracted as their match
functions. -/
structure UrlBlacklister where
  Regexps : List (String → Bool)

def NewBlacklister (env : Env) (rawRegexps : List String) : UrlBlacklister :=
  { Regexps := rawRegexps.map fun exp => env.regexMatch exp }

/-- UrlBlacklister.UrlIsBlack: true if any compiled pattern matches. -/
def UrlBlacklister.UrlIsBlack (checker : UrlBlacklister) (url : String) : Bool :=
  checker.Regexps.any fun re => re url

/-- The Validator with its collaborators (both caches are threaded as
explicit state, see VState). -/
structure Validator where
  UrlBlacklister : UrlBlacklister
  IpChecker : IpChecker
  Whitelister : Whitelister

/-- The mutable state owned by a Validator: the decision cache
(DomainCache) and the Whitelister memcache. -/
structure VState where
  domainCache : MemCache
  wlCache : MemCache

/-- Validator.getDomainCache. -/
def Validator.getDomainCache (st : VState) (domain : String) : Option Bool :=
  st.domainCache domain

/-- Validator.setDomainCache. -/
def Validator.setDomainCache (st : VState) (domain : String) (val : Bool) : VState :=
  { st with domainCache := st.domainCache.set domain val }

/-- getFullDomain. -/
def Validator.getFullDomain (scheme : String) (domain : String) : String :=
  scheme ++ "://" ++ domain

/-- Validator.ParseDomain: reject an empty URL, a url.Parse failure and an
empty hostname; otherwise return (full domain, domain).  The source
branches on DomainIsIP but returns the same value in both arms. -/
def Validator.ParseDomain (env : Env) (v : Validator) (urlString : String) :
    Except String (String × String) :=
  if urlString = "" then
    .error "received empty url to be parsed"
  else
    match env.urlParse urlString with
    | none => .error "url parse error"
    | some parsedData =>
      let domain := parsedData.hostname
      if domain = "" then
        .error "parsed empty domain from url"
      else if v.IpChecker.DomainIsIP env domain then
        .ok (Validator.getFullDomain parsedData.scheme domain, domain)
      else
        .ok (Validator.getFullDomain parsedData.scheme domain, domain)

/-- Validator.DomainRequiresProcessing: the decision sub-chain for one
domain (no decision-cache access here; that is done by the caller). -/
def Validator.DomainRequiresProcessing (env : Env) (v : Validator) (st : VState)
    (domain : String) : (Bool × Option String) × VState × List Event :=
  if v.IpChecker.DomainIsIP env domain then
    match v.IpChecker.GetNetIP env domain with
    | none => ((false, none), st, [])
    | some netIP =>
      if v.IpChecker.IsLocalIP env netIP then
        ((false, none), st, [])
      else
        match v.Whitelister.IpIsWhite env st.wlCache domain with
        | ((_, some e), wl, tr) => ((false, some e), { st with wlCache := wl }, tr)
        | ((isWhite, none), wl, tr) => ((!isWhite, none), { st with wlCache := wl }, tr)
  else
    match v.Whitelister.DomainIsWhite env st.wlCache domain with
    | ((_, some e), wl, tr) => ((false, some e), { st with wlCache := wl }, tr)
    | ((isWhite, none), wl, tr) =>
      if isWhite then
        ((!isWhite, none), { st with wlCache := wl }, tr)
      else
        match v.IpChecker.GetDomainIP env domain with
        | (.error _, tr2) => ((false, none), { st with wlCache := wl }, tr ++ tr2)
        | (.ok _, tr2) => ((true, none), { st with wlCache := wl }, tr ++ tr2)

/-- Validator.UrlRequiresProcessing: blacklist short circuit, domain
parse, decision-cache lookup, sub-chain on a miss, then cache the
result. -/
def Validator.UrlRequiresProcessing (env : Env) (v : Validator) (st : VState)
    (url : String) : (Bool × Option String) × VState × List Event :=
  if v.UrlBlacklister.UrlIsBlack url then
    ((false, none), st, [])
  else
    match v.ParseDomain env url with
    | .error e => ((false, some e), st, [Event.parseDomain url])
    | .ok (_, domain) =>
      match Validator.getDomainCache st domain with
      | some cached =>
        ((cached, none), st, [Event.parseDomain url, Event.cacheGet domain])
      | none =>
        match v.DomainRequiresProcessing env st domain with
        | ((_, some e), st1, tr) =>
          ((false, some e), st1, Event.parseDomain url :: Event.cacheGet domain :: tr)
        | ((result, none), st1, tr) =>
          ((result, none), Validator.setDomainCache st1 domain result,
            Event.parseDomain url :: Event.cacheGet domain ::
              (tr ++ [Event.cacheSet domain result]))

/-- IsValidUrl: url.Parse must succeed and the scheme must be http or
https. -/
def IsValidUrl (env : Env) (urlstr : String) : Bool :=
  match env.urlParse urlstr with
  | none => false
  | some u =>
    if u.scheme ≠ "http" && u.scheme ≠ "https" then false else true

/-- ValidatorConfig. -/
structure ValidatorConfig where
  UrlBlackListRegexps : List String
  LocalIPNets : List String
  WhitelisterApi : WhitelisterApi
deriving DecidableEq, Repr

/-- ValidatorConfig.IsValid, with the valid flag threaded exactly as the
source does (each failed check clears it; one millisecond is 1000000
nanoseconds). -/
def ValidatorConfig.IsValid (env : Env) (cfg : ValidatorConfig) : Bool :=
  let valid := true
  let valid := if cfg.UrlBlackListRegexps.length = 0 then false else valid
  let valid := if cfg.UrlBlackListRegexps.any (fun rx => rx = "") then false else valid
  let valid := if cfg.LocalIPNets.length = 0 then false else valid
  let valid := if cfg.LocalIPNets.any (fun rx => rx = "") then false else valid
  let valid := if !IsValidUrl env cfg.WhitelisterApi.CheckDomainApiUrl then false else valid
  let valid := if !IsValidUrl env cfg.WhitelisterApi.CheckIpApiUrl then false else valid
  let valid := if cfg.WhitelisterApi.MaxTries ≤ 0 then false else valid
  let valid := if cfg.WhitelisterApi.SleepTime < 1000000 then false else valid
  valid

/-- NewValidator: refuse an invalid configuration, otherwise assemble the
collaborators. -/
def NewValidator (env : Env) (cfg : ValidatorConfig) : Except String Validator :=
  if !cfg.IsValid env then
    .error "validator cfg is invalid"
  else
    .ok
      { UrlBlacklister := NewBlacklister env cfg.UrlBlackListRegexps
        IpChecker := NewIpChecker cfg.LocalIPNets
        Whitelister := NewWhitelister cfg.WhitelisterApi }

/-- HttpConfig (AuthTokens is a map modelled as an association list). -/
structure HttpConfig where
  Listen : String
  AuthTokens : List (String × String)
deriving DecidableEq, Repr

/-- HttpConfig.IsValid together with the error messages it logs, threaded
exactly as the source does: the empty-Listen check clears the valid flag,
while the empty-AuthTokens check only appends an error message and leaves
the flag untouched. -/
def HttpConfig.isValidErrs (c : HttpConfig) : Bool × List String :=
  let valid := true
  let errs : List String := []
  let (valid, errs) :=
    if c.Listen = "" then (false, errs ++ ["http empty val: listen"])
    else (valid, errs)
  let errs :=
    if c.AuthTokens.length = 0 then errs ++ ["http empty val: auth_tokens"]
    else errs
  (valid, errs)

def HttpConfig.IsValid (c : HttpConfig) : Bool :=
  (c.isValidErrs).1

/-- The parts of the Server the config claims touch. -/
structure Server where
  AuthTokens : List (String × String)
deriving DecidableEq, Repr

/-- NewServer: refuse an invalid HttpConfig, otherwise build the server. -/
def NewServer (cfg : HttpConfig) : Except String Server :=
  if !cfg.IsValid then
    .error "http config is invalid"
  else
    .ok { AuthTokens := cfg.AuthTokens }

/-- The try numbers of the HTTP attempts recorded in a trace. -/
def attemptTries (tr : List Event) : List Nat :=
  tr.filterMap fun e =>
    match e with
    | .httpAttempt _ t => some t
    | _ => none

/-- The sleep durations recorded in a trace, in order. -/
def sleepDurs (tr : List Event) : List Int :=
  tr.filterMap fun e =>
    match e with
    | .sleep d => some d
    | _ => none

/-- Modelled from the spec: the effect trace the spec prescribes for a
reputation lookup whose every try fails, starting at try a for n tries:
before try t with t greater than 1, a sleep of s * t, then the HTTP
attempt number t. -/
def specFailTrace (url : String) (s : Int) (a : Nat) (n : Nat) : List Event :=
  (List.range' a n).flatMap fun t =>
    (if t > 1 then [Event.sleep (s * (t : Int))] else []) ++ [Event.httpAttempt url t]

theorem specFailTrace_zero (url : String) (s : Int) (a : Nat) :
    specFailTrace url s a 0 = [] := rfl

theorem specFailTrace_succ (url : String) (s : Int) (a n : Nat) :
    specFailTrace url s a (n + 1) =
      ((if a > 1 then [Event.sleep (s * (a : Int))] else []) ++ [Event.httpAttempt url a]) ++
        specFailTrace url s (a + 1) n := by
  unfold specFailTrace
  rw [List.range'_succ]
  rfl

/-- If every attempt at the given URL fails, the retry loop starting at a
positive try number returns no result and the spec-prescribed trace. -/
theorem wlTryLoop_allFail (env : Env) (url : String) (s : Int) (hs : 0 < s)
    (hfail : ∀ t, (env.attempt url t).isOk = false) :
    ∀ fuel tryNo, 1 ≤ tryNo →
      wlTryLoop env url s fuel tryNo = (none, specFailTrace url s tryNo fuel) := by
  intro fuel
  induction fuel with
  | zero => intro tryNo _; rfl
  | succ n ih =>
    intro tryNo h1
    rw [wlTryLoop, specFailTrace_succ]
    have hpos : (0 : Int) < s * (tryNo : Int) := by
      have : (0 : Int) < (tryNo : Int) := by exact_mod_cast h1
      exact mul_pos hs this
    have hif : (if s * (tryNo : Int) > 0 then [Event.sleep (s * (tryNo : Int))] else []) =
        [Event.sleep (s * (tryNo : Int))] := if_pos hpos
    cases hatt : env.attempt url tryNo with
    | ok b =>
      have := hfail tryNo
      rw [hatt] at this
      simp [AttemptOutcome.isOk] at this
    | netErr =>
      simp only [hatt, ih (tryNo + 1) (by omega), hif, List.append_assoc, List.nil_append]
    | readErr st =>
      simp only [hatt, ih (tryNo + 1) (by omega), hif, List.append_assoc, List.nil_append]
    | badStatus st =>
      simp only [hatt, ih (tryNo + 1) (by omega), hif, List.append_assoc, List.nil_append]
    | jsonErr st =>
      simp only [hatt, ih (tryNo + 1) (by omega), hif, List.append_assoc, List.nil_append]

theorem attemptTries_append (l1 l2 : List Event) :
    attemptTries (l1 ++ l2) = attemptTries l1 ++ attemptTries l2 :=
  List.filterMap_append l1 l2 _

theorem sleepDurs_append (l1 l2 : List Event) :
    sleepDurs (l1 ++ l2) = sleepDurs l1 ++ sleepDurs l2 :=
  List.filterMap_append l1 l2 _

/-- The attempts recorded in the failure trace are exactly the try
numbers a, a+1, ..., a+n-1. -/
theorem attemptTries_specFailTrace (url : String) (s : Int) :
    ∀ n a, attemptTries (specFailTrace url s a n) = List.range' a n := by
  intro n
  induction n with
  | zero => intro a; rfl
  | succ m ih =>
    intro a
    rw [specFailTrace_succ, List.range'_succ, attemptTries_append, attemptTries_append,
      ih (a + 1)]
    by_cases h : a > 1 <;> simp [h, attemptTries]

/-- Starting from a try number of at least 2, every iteration of the
failure trace sleeps s * t. -/
theorem sleepDurs_specFailTrace (url : String) (s : Int) :
    ∀ n a, 2 ≤ a → sleepDurs (specFailTrace url s a n) =
      (List.range' a n).map (fun t : Nat => s * (t : Int)) := by
  intro n
  induction n with
  | zero => intro a _; rfl
  | succ m ih =>
    intro a ha
    rw [specFailTrace_succ, List.range'_succ, sleepDurs_append, sleepDurs_append,
      ih (a + 1) (by omega)]
    have h : a > 1 := by omega
    simp [h, sleepDurs]

/-- Starting from try 1, the sleeps of the failure trace are
s * 2, ..., s * n. -/
theorem sleepDurs_specFailTrace_one (url : String) (s : Int) (n : Nat) :
    sleepDurs (specFailTrace url s 1 n) =
      (List.range' 2 (n - 1)).map (fun t : Nat => s * (t : Int)) := by
  cases n with
  | zero => rfl
  | succ m =>
    rw [specFailTrace_succ, sleepDurs_append, sleepDurs_append,
      sleepDurs_specFailTrace url s m 2 (by omega)]
    simp [sleepDurs]

/-- With a positive base sleep the prescribed sleep sequence is strictly
increasing. -/
theorem chain_lt_sleeps (s : Int) (hs : 0 < s) (a n : Nat) :
    List.Chain' (· < ·) ((List.range' a n).map (fun t : Nat => s * (t : Int))) := by
  rw [List.chain'_iff_pairwise]
  refine List.Pairwise.map (fun t : Nat => s * (t : Int)) ?_ (List.pairwise_lt_range' a n)
  intro x y hxy
  exact mul_lt_mul_of_pos_left (by exact_mod_cast hxy) hs

/-- IpIsWhite returns a nil error on every path. -/
theorem IpIsWhite_err_none (env : Env) (wl : Whitelister) (mc : MemCache) (host : String) :
    (Whitelister.IpIsWhite env wl mc host).1.2 = none := by
  unfold Whitelister.IpIsWhite
  split
  · rfl
  · split <;> rfl

/-- DomainIsWhite returns a nil error on every path. -/
theorem DomainIsWhite_err_none (env : Env) (wl : Whitelister) (mc : MemCache) (host : String) :
    (Whitelister.DomainIsWhite env wl mc host).1.2 = none := by
  unfold Whitelister.DomainIsWhite
  split
  · rfl
  · split
    · rfl
    · split <;> rfl

/-- IpIsWhite on a cache miss against an always-failing client: maxTries
attempts, the prescribed sleeps, result (false, nil), cache unchanged. -/
theorem IpIsWhite_allFail (env : Env) (wl : Whitelister) (mc : MemCache) (host : String)
    (hmiss : mc host = none)
    (hfail : ∀ t, (env.attempt (env.format wl.checkIpApiUrl host) t).isOk = false)
    (hsleep : 0 < wl.sleepTime) :
    Whitelister.IpIsWhite env wl mc host =
      ((false, none), mc,
        Event.repCacheGet host ::
          specFailTrace (env.format wl.checkIpApiUrl host) wl.sleepTime 1 wl.maxTries.toNat) := by
  unfold Whitelister.IpIsWhite
  rw [wlTryLoop_allFail env _ _ hsleep hfail wl.maxTries.toNat 1 (by omega)]
  simp [hmiss]

/-- DomainIsWhite for a non-IP host on a cache miss against an
always-failing client: maxTries attempts, the prescribed sleeps, result
(false, nil), cache unchanged. -/
theorem DomainIsWhite_allFail (env : Env) (wl : Whitelister) (mc : MemCache) (host : String)
    (hdom : env.parseIP host = none)
    (hmiss : mc host = none)
    (hfail : ∀ t, (env.attempt (env.format wl.checkDomainApiUrl host) t).isOk = false)
    (hsleep : 0 < wl.sleepTime) :
    Whitelister.DomainIsWhite env wl mc host =
      ((false, none), mc,
        Event.repCacheGet host ::
          specFailTrace (env.format wl.checkDomainApiUrl host) wl.sleepTime 1 wl.maxTries.toNat) := by
  unfold Whitelister.DomainIsWhite
  rw [wlTryLoop_allFail env _ _ hsleep hfail wl.maxTries.toNat 1 (by omega)]
  simp [hmiss, hdom]

/-- DomainRequiresProcessing returns a nil error on every path. -/
theorem DRP_err_none (env : Env) (v : Validator) (st : VState) (domain : String) :
    (Validator.DomainRequiresProcessing env v st domain).1.2 = none := by
  unfold Validator.DomainRequiresProcessing
  have h1 := IpIsWhite_err_none env v.Whitelister st.wlCache domain
  have h2 := DomainIsWhite_err_none env v.Whitelister st.wlCache domain
  repeat' split
  all_goals simp_all

/-- DomainRequiresProcessing never touches the decision cache. -/
theorem DRP_domainCache (env : Env) (v : Validator) (st : VState) (domain : String) :
    (Validator.DomainRequiresProcessing env v st domain).2.1.domainCache = st.domainCache := by
  unfold Validator.DomainRequiresProcessing
  repeat' split
  all_goals rfl

/-- The events a reputation lookup can emit: its cache reads and writes,
sleeps and HTTP attempts. -/
def isRepEvent : Event → Bool
  | .sleep _ => true
  | .httpAttempt _ _ => true
  | .repCacheGet _ => true
  | .repCacheSet _ _ => true
  | _ => false

theorem wlTryLoop_all_rep (env : Env) (url : String) (s : Int) :
    ∀ fuel tryNo, ((wlTryLoop env url s fuel tryNo).2).all isRepEvent = true := by
  intro fuel
  induction fuel with
  | zero => intro t; rfl
  | succ n ih =>
    intro t
    rw [wlTryLoop]
    cases hatt : env.attempt url t <;>
      simp [List.all_append, isRepEvent, ih (t + 1)] <;>
      (intro x h1 h2 h3; subst h3; rfl)

theorem DomainIsWhite_all_rep (env : Env) (wl : Whitelister) (mc : MemCache) (host : String) :
    ((Whitelister.DomainIsWhite env wl mc host).2.2).all isRepEvent = true := by
  unfold Whitelister.DomainIsWhite
  have h := wlTryLoop_all_rep env (env.format wl.checkDomainApiUrl host)
    wl.sleepTime wl.maxTries.toNat 1
  repeat' split
  all_goals simp_all [List.all_append, isRepEvent]

theorem IpIsWhite_all_rep (env : Env) (wl : Whitelister) (mc : MemCache) (host : String) :
    ((Whitelister.IpIsWhite env wl mc host).2.2).all isRepEvent = true := by
  unfold Whitelister.IpIsWhite
  have h := wlTryLoop_all_rep env (env.format wl.checkIpApiUrl host)
    wl.sleepTime wl.maxTries.toNat 1
  repeat' split
  all_goals simp_all [List.all_append, isRepEvent]

theorem no_dns_of_all_rep {tr : List Event} (h : tr.all isRepEvent = true) (d : String) :
    Event.dnsLookup d ∉ tr := by
  intro hmem
  have hx := List.all_eq_true.mp h _ hmem
  simp [isRepEvent] at hx

/-- The local address 10.0.0.5 used by the concrete witnesses. -/
def ipLocal : IPAddr := { bytes := [10, 0, 0, 5] }

/-- A public address used by the concrete witnesses. -/
def ipPub : IPAddr := { bytes := [93, 184, 216, 34] }

/-- A concrete environment for the witnesses: a handful of parseable URLs,
one local IP literal, one resolvable and one unresolvable domain, and a
reputation service whose every attempt fails with a network error. -/
def envA : Env :=
  { urlParse := fun s =>
      if s = "http://site.example/a" then some { scheme := "http", hostname := "site.example" }
      else if s = "http://site.example/b" then some { scheme := "http", hostname := "site.example" }
      else if s = "http://10.0.0.5/x" then some { scheme := "http", hostname := "10.0.0.5" }
      else if s = "http://dead.example/" then some { scheme := "http", hostname := "dead.example" }
      else if s = "http://wl/domain/" then some { scheme := "http", hostname := "wl" }
      else if s = "http://wl/ip/" then some { scheme := "http", hostname := "wl" }
      else none
    parseIP := fun s =>
      if s = "10.0.0.5" then some ipLocal
      else if s = "93.184.216.34" then some ipPub
      else none
    isLoopback := fun ip => ip.bytes.headD 0 == 127
    isLinkLocalUnicast := fun _ => false
    isLinkLocalMulticast := fun _ => false
    cidrContains := fun cidr ip => cidr == "10.0.0.0/8" && ip.bytes.headD 0 == 10
    lookupHost := fun d => if d = "site.example" then some ["93.184.216.34"] else none
    format := fun t a => t ++ a
    regexMatch := fun pat s => pat == ".*evil.*" && s == "http://evil.example/login"
    attempt := fun _ _ => .netErr }

def blA : UrlBlacklister :=
  { Regexps := [fun s => s == "http://evil.example/login"] }

def icA : IpChecker := { LocalIPNets := ["10.0.0.0/8"] }

def wlA : Whitelister :=
  { checkDomainApiUrl := "http://wl/domain/"
    checkIpApiUrl := "http://wl/ip/"
    maxTries := 3
    sleepTime := 1000000 }

def vA : Validator := { UrlBlacklister := blA, IpChecker := icA, Whitelister := wlA }

def stA : VState := { domainCache := MemCache.empty, wlCache := MemCache.empty }

/-- The attempt and sleep content of the exhausted-retries trace: the
attempts are tries 1..n (so exactly n of them), the sleeps are
s * 2, ..., s * n, and with a positive s that sequence is strictly
increasing. -/
theorem specFailTrace_report (url : String) (host : String) (s : Int) (n : Nat) (hs : 0 < s) :
    attemptTries (Event.repCacheGet host :: specFailTrace url s 1 n) = List.range' 1 n ∧
    (attemptTries (Event.repCacheGet host :: specFailTrace url s 1 n)).length = n ∧
    sleepDurs (Event.repCacheGet host :: specFailTrace url s 1 n) =
      (List.range' 2 (n - 1)).map (fun t : Nat => s * (t : Int)) ∧
    List.Chain' (· < ·) (sleepDurs (Event.repCacheGet host :: specFailTrace url s 1 n)) := by
  have ha : attemptTries (Event.repCacheGet host :: specFailTrace url s 1 n) =
      List.range' 1 n := by
    simp only [attemptTries, List.filterMap_cons]
    exact attemptTries_specFailTrace url s n 1
  have hsd : sleepDurs (Event.repCacheGet host :: specFailTrace url s 1 n) =
      (List.range' 2 (n - 1)).map (fun t : Nat => s * (t : Int)) := by
    simp only [sleepDurs, List.filterMap_cons]
    exact sleepDurs_specFailTrace_one url s n
  refine ⟨ha, ?_, hsd, ?_⟩
  · rw [ha, List.length_range']
  · rw [hsd]
    exact chain_lt_sleeps s hs 2 (n - 1)

/-- C1: for every host key (domain or IP) not present in the reputation
cache, if every one of the configured max_tries attempts fails, the
reputation lookup performs exactly max_tries attempts (try numbers 1
through max_tries), sleeps base_sleep * n before attempt n for every n
greater than 1 — a strictly increasing sequence — and returns
(false, nil), never an error value.  IpIsWhite does so for every host
key; DomainIsWhite, which is the lookup used for domain-shaped keys,
does so for every key that is not an IP literal (IP literals are
short-circuited before the loop, see C6). -/
theorem C1_retry_exhaustion (env : Env) (wl : Whitelister) (mc : MemCache) (host : String)
    (hmiss : mc host = none)
    (hfail : ∀ u t, (env.attempt u t).isOk = false)
    (htries : 0 < wl.maxTries)
    (hsleep : 0 < wl.sleepTime) :
    ((Whitelister.IpIsWhite env wl mc host).1 = (false, none) ∧
     attemptTries (Whitelister.IpIsWhite env wl mc host).2.2 =
       List.range' 1 wl.maxTries.toNat ∧
     (attemptTries (Whitelister.IpIsWhite env wl mc host).2.2).length =
       wl.maxTries.toNat ∧
     sleepDurs (Whitelister.IpIsWhite env wl mc host).2.2 =
       (List.range' 2 (wl.maxTries.toNat - 1)).map (fun t : Nat => wl.sleepTime * (t : Int)) ∧
     List.Chain' (· < ·) (sleepDurs (Whitelister.IpIsWhite env wl mc host).2.2) ∧
     (Whitelister.IpIsWhite env wl mc host).2.2 =
       Event.repCacheGet host ::
         specFailTrace (env.format wl.checkIpApiUrl host) wl.sleepTime 1 wl.maxTries.toNat) ∧
    (env.parseIP host = none →
     (Whitelister.DomainIsWhite env wl mc host).1 = (false, none) ∧
     attemptTries (Whitelister.DomainIsWhite env wl mc host).2.2 =
       List.range' 1 wl.maxTries.toNat ∧
     (attemptTries (Whitelister.DomainIsWhite env wl mc host).2.2).length =
       wl.maxTries.toNat ∧
     sleepDurs (Whitelister.DomainIsWhite env wl mc host).2.2 =
       (List.range' 2 (wl.maxTries.toNat - 1)).map (fun t : Nat => wl.sleepTime * (t : Int)) ∧
     List.Chain' (· < ·) (sleepDurs (Whitelister.DomainIsWhite env wl mc host).2.2) ∧
     (Whitelister.DomainIsWhite env wl mc host).2.2 =
       Event.repCacheGet host ::
         specFailTrace (env.format wl.checkDomainApiUrl host) wl.sleepTime 1 wl.maxTries.toNat) := by
  constructor
  · rw [IpIsWhite_allFail env wl mc host hmiss (fun t => hfail _ t) hsleep]
    obtain ⟨h1, h2, h3, h4⟩ := specFailTrace_report (env.format wl.checkIpApiUrl host) host
      wl.sleepTime wl.maxTries.toNat hsleep
    exact ⟨rfl, h1, h2, h3, h4, rfl⟩
  · intro hdom
    rw [DomainIsWhite_allFail env wl mc host hdom hmiss (fun t => hfail _ t) hsleep]
    obtain ⟨h1, h2, h3, h4⟩ := specFailTrace_report (env.format wl.checkDomainApiUrl host) host
      wl.sleepTime wl.maxTries.toNat hsleep
    exact ⟨rfl, h1, h2, h3, h4, rfl⟩

/-- Witness for C1, at two concrete uncached host keys against the
always-failing client envA (maxTries = 3, sleepTime = 1 ms): the IP
literal 10.0.0.5 through IpIsWhite, and the domain site.example through
DomainIsWhite. -/
theorem C1_retry_exhaustion_witness :
    (MemCache.empty "10.0.0.5" = none ∧
     MemCache.empty "site.example" = none ∧
     (∀ u t, (envA.attempt u t).isOk = false) ∧
     0 < wlA.maxTries ∧ 0 < wlA.sleepTime ∧
     envA.parseIP "site.example" = none) ∧
    ((Whitelister.IpIsWhite envA wlA MemCache.empty "10.0.0.5").1 = (false, none) ∧
     attemptTries (Whitelister.IpIsWhite envA wlA MemCache.empty "10.0.0.5").2.2 =
       List.range' 1 wlA.maxTries.toNat ∧
     (attemptTries (Whitelister.IpIsWhite envA wlA MemCache.empty "10.0.0.5").2.2).length =
       wlA.maxTries.toNat ∧
     sleepDurs (Whitelister.IpIsWhite envA wlA MemCache.empty "10.0.0.5").2.2 =
       (List.range' 2 (wlA.maxTries.toNat - 1)).map (fun t : Nat => wlA.sleepTime * (t : Int)) ∧
     List.Chain' (· < ·)
       (sleepDurs (Whitelister.IpIsWhite envA wlA MemCache.empty "10.0.0.5").2.2) ∧
     (Whitelister.IpIsWhite envA wlA MemCache.empty "10.0.0.5").2.2 =
       Event.repCacheGet "10.0.0.5" ::
         specFailTrace (envA.format wlA.checkIpApiUrl "10.0.0.5")
           wlA.sleepTime 1 wlA.maxTries.toNat) ∧
    ((Whitelister.DomainIsWhite envA wlA MemCache.empty "site.example").1 = (false, none) ∧
     attemptTries (Whitelister.DomainIsWhite envA wlA MemCache.empty "site.example").2.2 =
       List.range' 1 wlA.maxTries.toNat ∧
     (attemptTries (Whitelister.DomainIsWhite envA wlA MemCache.empty "site.example").2.2).length =
       wlA.maxTries.toNat ∧
     sleepDurs (Whitelister.DomainIsWhite envA wlA MemCache.empty "site.example").2.2 =
       (List.range' 2 (wlA.maxTries.toNat - 1)).map (fun t : Nat => wlA.sleepTime * (t : Int)) ∧
     List.Chain' (· < ·)
       (sleepDurs (Whitelister.DomainIsWhite envA wlA MemCache.empty "site.example").2.2) ∧
     (Whitelister.DomainIsWhite envA wlA MemCache.empty "site.example").2.2 =
       Event.repCacheGet "site.example" ::
         specFailTrace (envA.format wlA.checkDomainApiUrl "site.example")
           wlA.sleepTime 1 wlA.maxTries.toNat) :=
  ⟨⟨rfl, rfl, fun u t => rfl, by decide, by decide, by decide⟩,
   (C1_retry_exhaustion envA wlA MemCache.empty "10.0.0.5"
     rfl (fun u t => rfl) (by decide) (by decide)).1,
   (C1_retry_exhaustion envA wlA MemCache.empty "site.example"
     rfl (fun u t => rfl) (by decide) (by decide)).2 (by decide)⟩

/-- C6: a host string that parses as an IP literal is short-circuited by
the domain-path lookup DomainIsWhite to (false, nil) with no network
call, no cache read and no cache write. -/
theorem C6_ip_literal_short_circuit (env : Env) (wl : Whitelister) (mc : MemCache)
    (host : String) (ip : IPAddr) (h : env.parseIP host = some ip) :
    Whitelister.DomainIsWhite env wl mc host = ((false, none), mc, []) := by
  unfold Whitelister.DomainIsWhite
  rw [h]
  rfl

/-- Witness for C6: the IP literal 10.0.0.5 through the domain path. -/
theorem C6_ip_literal_short_circuit_witness :
    envA.parseIP "10.0.0.5" = some ipLocal ∧
    Whitelister.DomainIsWhite envA wlA MemCache.empty "10.0.0.5" =
      ((false, none), MemCache.empty, []) :=
  ⟨by decide, C6_ip_literal_short_circuit envA wlA MemCache.empty "10.0.0.5" ipLocal (by decide)⟩

/-- C10: in the IP-literal arm of DomainRequiresProcessing the
netIP-is-nil branch is unreachable: whenever DomainIsIP holds, GetNetIP
is non-nil, DomainIsIP being defined as GetNetIP being non-nil. -/
theorem C10_nil_branch_unreachable (env : Env) (checker : IpChecker) (domain : String)
    (h : checker.DomainIsIP env domain = true) :
    checker.GetNetIP env domain ≠ none := by
  unfold IpChecker.DomainIsIP at h
  intro h2
  rw [h2] at h
  simp at h

/-- Witness for C10 at the IP literal 10.0.0.5. -/
theorem C10_nil_branch_unreachable_witness :
    icA.DomainIsIP envA "10.0.0.5" = true ∧
    icA.GetNetIP envA "10.0.0.5" ≠ none :=
  ⟨by decide, C10_nil_branch_unreachable envA icA "10.0.0.5" (by decide)⟩

/-- C3: a URL matched by at least one configured blacklist pattern is
answered (false, nil) immediately: the state is untouched and the trace
is empty — no domain parse, no cache access, no reputation query, no
DNS call. -/
theorem C3_blacklist_short_circuit (env : Env) (v : Validator) (st : VState) (url : String)
    (h : ∃ re ∈ v.UrlBlacklister.Regexps, re url = true) :
    Validator.UrlRequiresProcessing env v st url = ((false, none), st, []) := by
  have hb : v.UrlBlacklister.UrlIsBlack url = true := by
    unfold UrlBlacklister.UrlIsBlack
    obtain ⟨re, hmem, hre⟩ := h
    rw [List.any_eq_true]
    exact ⟨re, hmem, hre⟩
  unfold Validator.UrlRequiresProcessing
  rw [hb]
  rfl

/-- Witness for C3: the blacklisted URL of the concrete validator vA. -/
theorem C3_blacklist_short_circuit_witness :
    (∃ re ∈ vA.UrlBlacklister.Regexps, re "http://evil.example/login" = true) ∧
    Validator.UrlRequiresProcessing envA vA stA "http://evil.example/login" =
      ((false, none), stA, []) :=
  ⟨⟨fun s => s == "http://evil.example/login", List.mem_singleton.mpr rfl, rfl⟩,
   C3_blacklist_short_circuit envA vA stA "http://evil.example/login"
     ⟨fun s => s == "http://evil.example/login", List.mem_singleton.mpr rfl, rfl⟩⟩

/-- C5: a domain that is an IP literal which is loopback, link-local
unicast, link-local multicast, or inside a configured local CIDR range
is decided (false, nil) with an empty trace — no reputation query, so
the decision cannot depend on reputation-service state. -/
theorem C5_local_ip (env : Env) (v : Validator) (st : VState) (domain : String) (ip : IPAddr)
    (hip : env.parseIP domain = some ip)
    (hlocal : env.isLoopback ip = true ∨ env.isLinkLocalUnicast ip = true ∨
      env.isLinkLocalMulticast ip = true ∨
      (v.IpChecker.LocalIPNets.any fun n => env.cidrContains n ip) = true) :
    Validator.DomainRequiresProcessing env v st domain = ((false, none), st, []) := by
  have hl : v.IpChecker.IsLocalIP env ip = true := by
    unfold IpChecker.IsLocalIP
    rcases hlocal with h | h | h | h
    · simp [h]
    · simp [h]
    · simp [h]
    · split
      · rfl
      · exact h
  have hd : v.IpChecker.DomainIsIP env domain = true := by
    unfold IpChecker.DomainIsIP IpChecker.GetNetIP
    rw [hip]
    rfl
  simp [Validator.DomainRequiresProcessing, hd, IpChecker.GetNetIP, hip, hl]

/-- Witness for C5: 10.0.0.5 inside the configured local net 10.0.0.0/8. -/
theorem C5_local_ip_witness :
    envA.parseIP "10.0.0.5" = some ipLocal ∧
    (vA.IpChecker.LocalIPNets.any fun n => envA.cidrContains n ipLocal) = true ∧
    Validator.DomainRequiresProcessing envA vA stA "10.0.0.5" = ((false, none), stA, []) :=
  ⟨by decide, by decide,
   C5_local_ip envA vA stA "10.0.0.5" ipLocal (by decide)
     (Or.inr (Or.inr (Or.inr (by decide))))⟩

/-- C2: for a domain that is not an IP literal, DomainRequiresProcessing
returns (false, nil) with no DNS lookup when the reputation lookup
reports it allow-listed; when not allow-listed it returns (false, nil)
if resolution fails and (true, nil) if resolution succeeds. -/
theorem C2_domain_name_path (env : Env) (v : Validator) (st : VState) (domain : String)
    (h : v.IpChecker.DomainIsIP env domain = false) :
    ((Whitelister.DomainIsWhite env v.Whitelister st.wlCache domain).1.1 = true →
      (Validator.DomainRequiresProcessing env v st domain).1 = (false, none) ∧
      ∀ d, Event.dnsLookup d ∉ (Validator.DomainRequiresProcessing env v st domain).2.2) ∧
    ((Whitelister.DomainIsWhite env v.Whitelister st.wlCache domain).1.1 = false →
      (∀ e, (IpChecker.GetDomainIP env v.IpChecker domain).1 = Except.error e →
        (Validator.DomainRequiresProcessing env v st domain).1 = (false, none)) ∧
      (∀ ipr, (IpChecker.GetDomainIP env v.IpChecker domain).1 = Except.ok ipr →
        (Validator.DomainRequiresProcessing env v st domain).1 = (true, none))) := by
  rcases hdw : Whitelister.DomainIsWhite env v.Whitelister st.wlCache domain with
    ⟨⟨isW, err⟩, wl1, tr1⟩
  have herr := DomainIsWhite_err_none env v.Whitelister st.wlCache domain
  rw [hdw] at herr
  replace herr : err = none := herr
  subst herr
  have hrep := DomainIsWhite_all_rep env v.Whitelister st.wlCache domain
  rw [hdw] at hrep
  replace hrep : tr1.all isRepEvent = true := hrep
  unfold Validator.DomainRequiresProcessing
  rw [hdw]
  simp only [h, Bool.false_eq_true, if_false]
  constructor
  · intro hW
    replace hW : isW = true := hW
    subst hW
    exact ⟨rfl, fun d => no_dns_of_all_rep hrep d⟩
  · intro hW
    replace hW : isW = false := hW
    subst hW
    rcases hgd : IpChecker.GetDomainIP env v.IpChecker domain with ⟨res, tr2⟩
    cases res with
    | error eo =>
      constructor
      · intro e _
        rfl
      · intro ipr he
        replace he : Except.error eo = Except.ok ipr := he
        exact absurd he (by simp)
    | ok ipo =>
      constructor
      · intro e he
        replace he : Except.ok ipo = Except.error e := he
        exact absurd he (by simp)
      · intro ipr _
        rfl

/-- Witness for C2 at the non-IP domain dead.example (which has no DNS
record in envA), with the always-failing reputation client. -/
theorem C2_domain_name_path_witness :
    vA.IpChecker.DomainIsIP envA "dead.example" = false ∧
    (((Whitelister.DomainIsWhite envA vA.Whitelister stA.wlCache "dead.example").1.1 = true →
      (Validator.DomainRequiresProcessing envA vA stA "dead.example").1 = (false, none) ∧
      ∀ d, Event.dnsLookup d ∉ (Validator.DomainRequiresProcessing envA vA stA "dead.example").2.2) ∧
    ((Whitelister.DomainIsWhite envA vA.Whitelister stA.wlCache "dead.example").1.1 = false →
      (∀ e, (IpChecker.GetDomainIP envA vA.IpChecker "dead.example").1 = Except.error e →
        (Validator.DomainRequiresProcessing envA vA stA "dead.example").1 = (false, none)) ∧
      (∀ ipr, (IpChecker.GetDomainIP envA vA.IpChecker "dead.example").1 = Except.ok ipr →
        (Validator.DomainRequiresProcessing envA vA stA "dead.example").1 = (true, none)))) :=
  ⟨by decide, C2_domain_name_path envA vA stA "dead.example" (by decide)⟩

/-- UrlRequiresProcessing on a non-blacklisted URL with a decision-cache
hit: the cached boolean, nil error, untouched state, and a trace with no
reputation or DNS events. -/
theorem URP_hit (env : Env) (v : Validator) (st : VState)
    (url fullDomain domain : String)
    (hnb : v.UrlBlacklister.UrlIsBlack url = false)
    (hparse : Validator.ParseDomain env v url = Except.ok (fullDomain, domain))
    (b : Bool) (hb : st.domainCache domain = some b) :
    Validator.UrlRequiresProcessing env v st url =
      ((b, none), st, [Event.parseDomain url, Event.cacheGet domain]) := by
  unfold Validator.UrlRequiresProcessing
  rw [hnb, hparse]
  show (match Validator.getDomainCache st domain with
    | some cached => ((cached, none), st, [Event.parseDomain url, Event.cacheGet domain])
    | none =>
      match Validator.DomainRequiresProcessing env v st domain with
      | ((_, some e), st1, tr) =>
        ((false, some e), st1, Event.parseDomain url :: Event.cacheGet domain :: tr)
      | ((result, none), st1, tr) =>
        ((result, none), Validator.setDomainCache st1 domain result,
          Event.parseDomain url :: Event.cacheGet domain ::
            (tr ++ [Event.cacheSet domain result]))) =
    ((b, none), st, [Event.parseDomain url, Event.cacheGet domain])
  rw [show Validator.getDomainCache st domain = some b from hb]

/-- UrlRequiresProcessing on a non-blacklisted URL with a decision-cache
miss: the sub-chain result, stored into the decision cache before
returning. -/
theorem URP_miss (env : Env) (v : Validator) (st : VState)
    (url fullDomain domain : String)
    (hnb : v.UrlBlacklister.UrlIsBlack url = false)
    (hparse : Validator.ParseDomain env v url = Except.ok (fullDomain, domain))
    (hb : st.domainCache domain = none) :
    Validator.UrlRequiresProcessing env v st url =
      (((Validator.DomainRequiresProcessing env v st domain).1.1, none),
        Validator.setDomainCache (Validator.DomainRequiresProcessing env v st domain).2.1
          domain (Validator.DomainRequiresProcessing env v st domain).1.1,
        Event.parseDomain url :: Event.cacheGet domain ::
          ((Validator.DomainRequiresProcessing env v st domain).2.2 ++
            [Event.cacheSet domain (Validator.DomainRequiresProcessing env v st domain).1.1])) := by
  unfold Validator.UrlRequiresProcessing
  rw [hnb, hparse]
  show (match Validator.getDomainCache st domain with
    | some cached => ((cached, none), st, [Event.parseDomain url, Event.cacheGet domain])
    | none =>
      match Validator.DomainRequiresProcessing env v st domain with
      | ((_, some e), st1, tr) =>
        ((false, some e), st1, Event.parseDomain url :: Event.cacheGet domain :: tr)
      | ((result, none), st1, tr) =>
        ((result, none), Validator.setDomainCache st1 domain result,
          Event.parseDomain url :: Event.cacheGet domain ::
            (tr ++ [Event.cacheSet domain result]))) = _
  rw [show Validator.getDomainCache st domain = none from hb]
  rcases hdr : Validator.DomainRequiresProcessing env v st domain with ⟨⟨result, err⟩, st1, tr⟩
  have herr := DRP_err_none env v st domain
  rw [hdr] at herr
  replace herr : err = none := herr
  subst herr
  rfl

/-- C4: for a non-blacklisted URL whose domain has an unexpired decision
cache entry, UrlRequiresProcessing returns that cached boolean with a
nil error, leaves the state untouched, and emits neither reputation nor
resolver events; on a miss it computes the sub-chain decision and stores
it in the decision cache before returning it. -/
theorem C4_decision_cache (env : Env) (v : Validator) (st : VState)
    (url fullDomain domain : String)
    (hnb : v.UrlBlacklister.UrlIsBlack url = false)
    (hparse : Validator.ParseDomain env v url = Except.ok (fullDomain, domain)) :
    (∀ b, st.domainCache domain = some b →
      Validator.UrlRequiresProcessing env v st url =
        ((b, none), st, [Event.parseDomain url, Event.cacheGet domain])) ∧
    (st.domainCache domain = none →
      Validator.UrlRequiresProcessing env v st url =
        (((Validator.DomainRequiresProcessing env v st domain).1.1, none),
          Validator.setDomainCache (Validator.DomainRequiresProcessing env v st domain).2.1
            domain (Validator.DomainRequiresProcessing env v st domain).1.1,
          Event.parseDomain url :: Event.cacheGet domain ::
            ((Validator.DomainRequiresProcessing env v st domain).2.2 ++
              [Event.cacheSet domain (Validator.DomainRequiresProcessing env v st domain).1.1]))) :=
  ⟨fun b hb => URP_hit env v st url fullDomain domain hnb hparse b hb,
   fun hb => URP_miss env v st url fullDomain domain hnb hparse hb⟩

/-- Witness for C4 at the concrete URL http://site.example/a. -/
theorem C4_decision_cache_witness :
    vA.UrlBlacklister.UrlIsBlack "http://site.example/a" = false ∧
    Validator.ParseDomain envA vA "http://site.example/a" =
      Except.ok ("http://site.example", "site.example") ∧
    ((∀ b, stA.domainCache "site.example" = some b →
      Validator.UrlRequiresProcessing envA vA stA "http://site.example/a" =
        ((b, none), stA,
          [Event.parseDomain "http://site.example/a", Event.cacheGet "site.example"])) ∧
    (stA.domainCache "site.example" = none →
      Validator.UrlRequiresProcessing envA vA stA "http://site.example/a" =
        (((Validator.DomainRequiresProcessing envA vA stA "site.example").1.1, none),
          Validator.setDomainCache
            (Validator.DomainRequiresProcessing envA vA stA "site.example").2.1
            "site.example"
            (Validator.DomainRequiresProcessing envA vA stA "site.example").1.1,
          Event.parseDomain "http://site.example/a" :: Event.cacheGet "site.example" ::
            ((Validator.DomainRequiresProcessing envA vA stA "site.example").2.2 ++
              [Event.cacheSet "site.example"
                (Validator.DomainRequiresProcessing envA vA stA "site.example").1.1])))) :=
  ⟨by decide, rfl,
   C4_decision_cache envA vA stA "http://site.example/a" "http://site.example" "site.example"
     (by decide) rfl⟩

/-- C7: two non-blacklisted URLs parsing to the same hostname share one
decision-cache key: after the first URL is decided, the second URL
(within the TTL) is answered from the cache with the identical boolean
and without recomputing the decision chain. -/
theorem C7_cache_keyed_by_domain (env : Env) (v : Validator) (st : VState)
    (u1 u2 full1 full2 d : String)
    (hb1 : v.UrlBlacklister.UrlIsBlack u1 = false)
    (hb2 : v.UrlBlacklister.UrlIsBlack u2 = false)
    (hp1 : Validator.ParseDomain env v u1 = Except.ok (full1, d))
    (hp2 : Validator.ParseDomain env v u2 = Except.ok (full2, d)) :
    Validator.UrlRequiresProcessing env v
        (Validator.UrlRequiresProcessing env v st u1).2.1 u2 =
      (((Validator.UrlRequiresProcessing env v st u1).1.1, none),
        (Validator.UrlRequiresProcessing env v st u1).2.1,
        [Event.parseDomain u2, Event.cacheGet d]) := by
  have hkey : (Validator.UrlRequiresProcessing env v st u1).2.1.domainCache d =
      some (Validator.UrlRequiresProcessing env v st u1).1.1 := by
    cases hc : st.domainCache d with
    | some b =>
      rw [URP_hit env v st u1 full1 d hb1 hp1 b hc]
      exact hc
    | none =>
      rw [URP_miss env v st u1 full1 d hb1 hp1 hc]
      show (Validator.setDomainCache
          (Validator.DomainRequiresProcessing env v st d).2.1 d
          (Validator.DomainRequiresProcessing env v st d).1.1).domainCache d = _
      unfold Validator.setDomainCache MemCache.set
      simp
  exact URP_hit env v (Validator.UrlRequiresProcessing env v st u1).2.1 u2 full2 d
    hb2 hp2 (Validator.UrlRequiresProcessing env v st u1).1.1 hkey

/-- Witness for C7: two paths on site.example. -/
theorem C7_cache_keyed_by_domain_witness :
    vA.UrlBlacklister.UrlIsBlack "http://site.example/a" = false ∧
    vA.UrlBlacklister.UrlIsBlack "http://site.example/b" = false ∧
    Validator.ParseDomain envA vA "http://site.example/a" =
      Except.ok ("http://site.example", "site.example") ∧
    Validator.ParseDomain envA vA "http://site.example/b" =
      Except.ok ("http://site.example", "site.example") ∧
    Validator.UrlRequiresProcessing envA vA
        (Validator.UrlRequiresProcessing envA vA stA "http://site.example/a").2.1
        "http://site.example/b" =
      (((Validator.UrlRequiresProcessing envA vA stA "http://site.example/a").1.1, none),
        (Validator.UrlRequiresProcessing envA vA stA "http://site.example/a").2.1,
        [Event.parseDomain "http://site.example/b", Event.cacheGet "site.example"]) :=
  ⟨by decide, by decide, rfl, rfl,
   C7_cache_keyed_by_domain envA vA stA "http://site.example/a" "http://site.example/b"
     "http://site.example" "http://site.example" "site.example"
     (by decide) (by decide) rfl rfl⟩

/-- C9: the whitelister lookups return a nil error on every path, the
sub-chain never errors (its whitelister-guarded error returns are
unreachable), and UrlRequiresProcessing errors exactly when the
non-blacklisted URL fails domain parsing. -/
theorem C9_error_paths (env : Env) (v : Validator) (st : VState) (url host : String)
    (mc : MemCache) :
    (Whitelister.DomainIsWhite env v.Whitelister mc host).1.2 = none ∧
    (Whitelister.IpIsWhite env v.Whitelister mc host).1.2 = none ∧
    (Validator.DomainRequiresProcessing env v st host).1.2 = none ∧
    ((Validator.UrlRequiresProcessing env v st url).1.2 ≠ none ↔
      (v.UrlBlacklister.UrlIsBlack url = false ∧
        ∃ e, Validator.ParseDomain env v url = Except.error e)) := by
  refine ⟨DomainIsWhite_err_none env v.Whitelister mc host,
    IpIsWhite_err_none env v.Whitelister mc host,
    DRP_err_none env v st host, ?_⟩
  unfold Validator.UrlRequiresProcessing
  cases hb : v.UrlBlacklister.UrlIsBlack url with
  | true => simp [hb]
  | false =>
    cases hp : Validator.ParseDomain env v url with
    | error e => simp [hp]
    | ok pr =>
      rcases pr with ⟨full, domain⟩
      cases hc : Validator.getDomainCache st domain with
      | some b => simp [hp, hc]
      | none =>
        rcases hdr : Validator.DomainRequiresProcessing env v st domain with
          ⟨⟨r, err⟩, st1, tr⟩
        have herr := DRP_err_none env v st domain
        rw [hdr] at herr
        replace herr : err = none := herr
        subst herr
        simp [hp, hc, hdr]

/-- The whitelister API block shared by the configuration fixtures. -/
def apiOK : WhitelisterApi :=
  { CheckIpApiUrl := "http://wl/ip/"
    CheckDomainApiUrl := "http://wl/domain/"
    MaxTries := 3
    SleepTime := 1000000 }

/-- A structurally valid validator configuration. -/
def cfgOK : ValidatorConfig :=
  { UrlBlackListRegexps := [".*evil.*"]
    LocalIPNets := ["10.0.0.0/8"]
    WhitelisterApi := apiOK }

/-- C8 evidence: each structural flaw of the validator configuration and
an empty listen address are refused by the constructors, but a config
with an empty auth-token map slips through: HttpConfig.isValidErrs
records the auth_tokens error message yet reports the config valid, and
NewServer builds the server. -/
theorem C8_config_validation :
    (∃ e, NewValidator envA { cfgOK with UrlBlackListRegexps := [] } = Except.error e) ∧
    (∃ e, NewValidator envA { cfgOK with UrlBlackListRegexps := [""] } = Except.error e) ∧
    (∃ e, NewValidator envA { cfgOK with LocalIPNets := [] } = Except.error e) ∧
    (∃ e, NewValidator envA { cfgOK with LocalIPNets := [""] } = Except.error e) ∧
    (∃ e, NewValidator envA
      { cfgOK with WhitelisterApi := { apiOK with CheckDomainApiUrl := "bad url" } } =
        Except.error e) ∧
    (∃ e, NewValidator envA
      { cfgOK with WhitelisterApi := { apiOK with CheckIpApiUrl := "bad url" } } =
        Except.error e) ∧
    (∃ e, NewValidator envA
      { cfgOK with WhitelisterApi := { apiOK with MaxTries := 0 } } = Except.error e) ∧
    (∃ e, NewServer { Listen := "", AuthTokens := [("sys", "tok")] } = Except.error e) ∧
    HttpConfig.isValidErrs { Listen := "8080", AuthTokens := [] } =
      (true, ["http empty val: auth_tokens"]) ∧
    NewServer { Listen := "8080", AuthTokens := [] } = Except.ok { AuthTokens := [] } :=
  ⟨⟨"validator cfg is invalid", rfl⟩, ⟨"validator cfg is invalid", rfl⟩,
   ⟨"validator cfg is invalid", rfl⟩, ⟨"validator cfg is invalid", rfl⟩,
   ⟨"validator cfg is invalid", rfl⟩, ⟨"validator cfg is invalid", rfl⟩,
   ⟨"validator cfg is invalid", rfl⟩, ⟨"http config is invalid", rfl⟩,
   rfl, rfl⟩
